import Mathlib

/-!
Verification of the clipFavGifSearch Vencord plugin (`src/index.tsx` and the
revised module `src/unnamed/part_000`).

The development shallowly embeds the plugin's pure core:

* the gif validator `getValidGifUrls`;
* the change detector `shouldIndex` over the module-level sync state;
* the indexer `sendIndexRequest` (modelled as a state transition whose network
  outcome is an explicit parameter, split at the `await` suspension point into
  `sendIndexStart` / `sendIndexFinish` so that the single-flight discipline is
  expressible);
* the rank-fusion step of `performSearch`;
* the search-bar orchestration (`onChange`, `onClear`, the debounce effect and
  the response handler).

JavaScript strings are modelled through their character lists (`String.data`),
numbers by `ℚ` (the fusion arithmetic of the source is exact on the inputs
considered; no overflow or rounding is relied upon by any claim), JavaScript
`Map`/`Set`/`Record` values by association lists that keep the source's
insertion-order and overwrite semantics.
-/

namespace Clip

/-- The `Gif` interface of `src/index.tsx` (identical in `part_000`). -/
structure Gif where
  format : Nat
  src : String
  width : Nat
  height : Nat
  order : Nat
  url : String
deriving DecidableEq, Repr

/-! ## JavaScript string primitives, modelled on character lists -/

/-- JavaScript `s.length`, modelled as the number of characters. -/
def jsLength (s : String) : Nat := s.data.length

/-- JavaScript `s.startsWith(pre)`. -/
def jsStartsWith (s pre : String) : Bool := pre.data.isPrefixOf s.data

/-- JavaScript `s.endsWith(suf)`. -/
def jsEndsWith (s suf : String) : Bool := suf.data.isSuffixOf s.data

/-- JavaScript `s.substring(off, endIdx)` where
`endIdx = s.indexOf('/', off)` (or `s.length` when there is no `'/'`):
the text between position `off` and the first `'/'` at or after `off`. -/
def domainSub (s : String) (off : Nat) : String :=
  ⟨(s.data.drop off).takeWhile (fun c => c != '/')⟩

/-! ## Validator (`getValidGifUrls`, src/index.tsx lines 177-212) -/

/-- One iteration of the validation loop shared by `getValidGifUrls` and
`sendIndexRequest`: returns `some name` exactly when the gif survives every
check (`continue` in the source becomes `none`). -/
def validGifName (gif : Gif) : Option String :=
  let name := gif.url
  if 512 < jsLength name then none
  else if 2000 < jsLength gif.src then none
  else
    match (if jsStartsWith gif.src "http://" then some 7
           else if jsStartsWith gif.src "https://" then some 8
           else none : Option Nat) with
    | none => none
    | some domainOffset =>
      let domain := domainSub gif.src domainOffset
      if domain = "" ∨ 256 < jsLength domain ∨
          (jsEndsWith domain ".discordapp.net" = false ∧ domain ≠ "media.tenor.co") then
        none
      else some name

/-- The function `getValidGifUrls` (src/index.tsx lines 177-212, part_000 lines 178-213). -/
def getValidGifUrls (favorites : List Gif) : List String :=
  favorites.filterMap validGifName

/-! ### The validation rules as the specification states them -/

/-- Spec-side domain rule: non-empty, at most 256 characters, and ends with
the configured suffix `".discordapp.net"` or equals the allowed exact host
`"media.tenor.co"`. -/
def specDomainOk (domain : String) : Prop :=
  domain ≠ "" ∧ jsLength domain ≤ 256 ∧
    (jsEndsWith domain ".discordapp.net" = true ∨ domain = "media.tenor.co")

/-- Spec-side validity rule for one item: id at most 512 characters, locator at
most 2000 characters, locator starts with `http://` or `https://`, and the
domain (the substring between the scheme and the first `'/'`, or the end of the
string if none) satisfies `specDomainOk`. -/
def specValidItem (gif : Gif) : Prop :=
  jsLength gif.url ≤ 512 ∧ jsLength gif.src ≤ 2000 ∧
    ((jsStartsWith gif.src "http://" = true ∧ specDomainOk (domainSub gif.src 7)) ∨
     (jsStartsWith gif.src "https://" = true ∧ specDomainOk (domainSub gif.src 8)))

instance : DecidablePred specValidItem := fun gif => by
  unfold specValidItem specDomainOk
  exact inferInstance

/-- A string starting with `"http://"` does not start with `"https://"`:
their fifth characters disagree. -/
theorem not_https_of_http {s : String} (h : jsStartsWith s "http://" = true) :
    jsStartsWith s "https://" = false := by
  unfold jsStartsWith at *
  rw [ List.isPrefixOf_iff_prefix] at h
  rw [Bool.eq_false_iff, Ne, List.isPrefixOf_iff_prefix]
  intro h'
  obtain ⟨t, ht⟩ := h
  obtain ⟨u, hu⟩ := h'
  rw [← ht] at hu
  have hdata : "http://".data = ['h', 't', 't', 'p', ':', '/', '/'] := rfl
  have hdata' : "https://".data = ['h', 't', 't', 'p', 's', ':', '/', '/'] := rfl
  rw [hdata, hdata'] at hu
  simp at hu

/-- Pointwise form of the validator: a gif contributes its id exactly when it
satisfies the specification's validity rule. -/
theorem validGifName_eq_spec (gif : Gif) :
    validGifName gif = if specValidItem gif then some gif.url else none := by
  unfold validGifName specValidItem specDomainOk
  by_cases h1 : 512 < jsLength gif.url
  · rw [if_pos h1, if_neg]
    rintro ⟨h1', -⟩
    omega
  · rw [if_neg h1]
    by_cases h2 : 2000 < jsLength gif.src
    · rw [if_pos h2, if_neg]
      rintro ⟨-, h2', -⟩
      omega
    · rw [if_neg h2]
      by_cases hsc : jsStartsWith gif.src "http://" = true
      · rw [if_pos hsc]
        show (if domainSub gif.src 7 = "" ∨ 256 < jsLength (domainSub gif.src 7) ∨
              (jsEndsWith (domainSub gif.src 7) ".discordapp.net" = false ∧
                domainSub gif.src 7 ≠ "media.tenor.co") then none else some gif.url) = _
        by_cases hd : domainSub gif.src 7 = "" ∨ 256 < jsLength (domainSub gif.src 7) ∨
            (jsEndsWith (domainSub gif.src 7) ".discordapp.net" = false ∧
              domainSub gif.src 7 ≠ "media.tenor.co")
        · rw [if_pos hd, if_neg]
          rintro ⟨-, -, ⟨-, hne, hlen, hdom⟩ | ⟨hs, -⟩⟩
          · rcases hd with hd | hd | ⟨hd1, hd2⟩
            · exact hne hd
            · omega
            · rcases hdom with hdom | hdom
              · rw [hdom] at hd1; simp at hd1
              · exact hd2 hdom
          · rw [not_https_of_http hsc] at hs
            simp at hs
        · rw [if_neg hd, if_pos]
          push_neg at hd
          refine ⟨by omega, by omega, Or.inl ⟨hsc, hd.1, by omega, ?_⟩⟩
          rcases he : jsEndsWith (domainSub gif.src 7) ".discordapp.net"
          · exact Or.inr (hd.2.2 he)
          · exact Or.inl rfl
      · rw [if_neg hsc]
        rw [Bool.not_eq_true] at hsc
        by_cases hsc2 : jsStartsWith gif.src "https://" = true
        · rw [if_pos hsc2]
          show (if domainSub gif.src 8 = "" ∨ 256 < jsLength (domainSub gif.src 8) ∨
                (jsEndsWith (domainSub gif.src 8) ".discordapp.net" = false ∧
                  domainSub gif.src 8 ≠ "media.tenor.co") then none else some gif.url) = _
          by_cases hd : domainSub gif.src 8 = "" ∨ 256 < jsLength (domainSub gif.src 8) ∨
              (jsEndsWith (domainSub gif.src 8) ".discordapp.net" = false ∧
                domainSub gif.src 8 ≠ "media.tenor.co")
          · rw [if_pos hd, if_neg]
            rintro ⟨-, -, ⟨hs, -⟩ | ⟨-, hne, hlen, hdom⟩⟩
            · rw [hsc] at hs; simp at hs
            · rcases hd with hd | hd | ⟨hd1, hd2⟩
              · exact hne hd
              · omega
              · rcases hdom with hdom | hdom
                · rw [hdom] at hd1; simp at hd1
                · exact hd2 hdom
          · rw [if_neg hd, if_pos]
            push_neg at hd
            refine ⟨by omega, by omega, Or.inr ⟨hsc2, hd.1, by omega, ?_⟩⟩
            rcases he : jsEndsWith (domainSub gif.src 8) ".discordapp.net"
            · exact Or.inr (hd.2.2 he)
            · exact Or.inl rfl
        · rw [if_neg hsc2]
          rw [Bool.not_eq_true] at hsc2
          show none = _
          rw [if_neg]
          rintro ⟨-, -, ⟨hs, -⟩ | ⟨hs, -⟩⟩
          · rw [hsc] at hs; simp at hs
          · rw [hsc2] at hs; simp at hs

/-- Claim C3: the validator returns exactly the items satisfying the
specification's rules (id length at most 512, locator length at most 2000,
`http://`/`https://` scheme, and the domain rule), in input order, without
deduplicating ids; every failing item is silently dropped and the function is
total. -/
theorem C3_validator (favorites : List Gif) :
    getValidGifUrls favorites
      = (favorites.filter (fun g => decide (specValidItem g))).map Gif.url := by
  induction favorites with
  | nil => rfl
  | cons g gs ih =>
    rw [getValidGifUrls, List.filterMap_cons, validGifName_eq_spec, List.filter_cons]
    by_cases hg : specValidItem g
    · rw [if_pos hg, if_pos (by simpa using hg), List.map_cons, ← getValidGifUrls, ih]
    · rw [if_neg hg, if_neg (by simpa using hg), ← getValidGifUrls, ih]

/-! ## Rank fusion (the fusion steps of `performSearch`,
src/index.tsx lines 412-459) -/

/-- One model's ranked list as returned by the server: `(locator, rawScore)`
pairs. Raw scores are modelled by `ℚ`. -/
abbrev RankedList := List (String × ℚ)

/-- The response's `results` record, model id to ranked list in key order. -/
abbrev ModelResults := List (String × RankedList)

/-- Insertion step of the stable ascending sort
`[...results].sort((a, b) => a[1] - b[1])`: an element is placed before the
first element whose score is not smaller, so earlier elements stay first on
ties, as JavaScript's stable sort guarantees. -/
def insertAsc (x : String × ℚ) : RankedList → RankedList
  | [] => [x]
  | y :: ys => if y.2 < x.2 then y :: insertAsc x ys else x :: y :: ys

/-- Stable ascending sort by raw score (lower = better). -/
def sortAsc : RankedList → RankedList
  | [] => []
  | x :: xs => insertAsc x (sortAsc xs)

/-- JavaScript `Map.prototype.set`: overwrite the value of an existing key in
place, otherwise append the binding. -/
def mapSet (m : List (String × Nat)) (k : String) (v : Nat) : List (String × Nat) :=
  if m.any (fun p => p.1 == k) then m.map (fun p => if p.1 == k then (k, v) else p)
  else m ++ [(k, v)]

/-- JavaScript `Map.prototype.get` (`none` for a missing key). -/
def mapGet (m : List (String × Nat)) (k : String) : Option Nat :=
  (m.find? (fun p => p.1 == k)).map Prod.snd

/-- Step 1 of the fusion: `sorted.forEach(([url], idx) => map.set(url, idx + 1))`,
rank 1 = best. -/
def buildRankMap (results : RankedList) : List (String × Nat) :=
  (sortAsc results).enum.foldl (fun m iu => mapSet m iu.2.1 (iu.1 + 1)) []

/-- The `rankingMaps` record, in model-key order. -/
def rankingMaps (modelResults : ModelResults) : List (String × List (String × Nat)) :=
  modelResults.map (fun m => (m.1, buildRankMap m.2))

/-- JavaScript `Set.prototype.add` (iteration order = first insertion). -/
def addUrl (acc : List String) (u : String) : List String :=
  if u ∈ acc then acc else acc ++ [u]

/-- Step 2: the union of all returned locators, enumerated in first-occurrence
order over the models' lists. -/
def allUrls (modelResults : ModelResults) : List String :=
  modelResults.foldl (fun acc m => m.2.foldl (fun a p => addUrl a p.1) acc) []

/-- The weight lookup `weights[modelId] ?? 0.5`. -/
def lookupWeight (weights : List (String × ℚ)) (modelId : String) : ℚ :=
  ((weights.find? (fun p => p.1 == modelId)).map Prod.snd).getD (1 / 2)

/-- The body of the step-3 loop over `Object.entries(rankingMaps)`:
`totalScore += (1 / rank) * weight; totalWeight += weight` when the model
ranked the locator. -/
def accumulate (weights : List (String × ℚ)) (url : String)
    (acc : ℚ × ℚ) (m : String × List (String × Nat)) : ℚ × ℚ :=
  let weight := lookupWeight weights m.1
  match mapGet m.2 url with
  | some rank => (acc.1 + 1 / (rank : ℚ) * weight, acc.2 + weight)
  | none => acc

/-- Step 3 per locator: `(totalScore, totalWeight)` accumulated over all
models. -/
def aggregateUrl (weights : List (String × ℚ))
    (maps : List (String × List (String × Nat))) (url : String) : ℚ × ℚ :=
  maps.foldl (accumulate weights url) (0, 0)

/-- The lookup `props.favCopy.find(g => g.url === url)`. -/
def findGif (favCopy : List Gif) (url : String) : Option Gif :=
  favCopy.find? (fun g => g.url == url)

/-- The `aggregated` array: locator union, weighted-rank aggregation, drop on
zero total weight, resolve against `favCopy`, drop unresolved locators. -/
def aggregated (weights : List (String × ℚ)) (modelResults : ModelResults)
    (favCopy : List Gif) : List (ℚ × Gif) :=
  (allUrls modelResults).filterMap (fun url =>
    let tw := aggregateUrl weights (rankingMaps modelResults) url
    if tw.2 = 0 then none
    else (findGif favCopy url).map (fun g => (tw.1 / tw.2, g)))

/-- Insertion step of the stable descending sort
`aggregated.sort((a, b) => b.combinedScore - a.combinedScore)`. -/
def insertDesc (x : ℚ × Gif) : List (ℚ × Gif) → List (ℚ × Gif)
  | [] => [x]
  | y :: ys => if x.1 < y.1 then y :: insertDesc x ys else x :: y :: ys

/-- Stable descending sort by combined score (higher = better). -/
def sortDesc : List (ℚ × Gif) → List (ℚ × Gif)
  | [] => []
  | x :: xs => insertDesc x (sortDesc xs)

/-- The complete fusion step of `performSearch`: the new collection view
`props.favorites = aggregated.map(e => e.gif)` after the descending sort. -/
def fuseResults (weights : List (String × ℚ)) (modelResults : ModelResults)
    (favCopy : List Gif) : List Gif :=
  (sortDesc (aggregated weights modelResults favCopy)).map Prod.snd

/-! ### The fusion formula as the specification states it -/

/-- One-based position of `u` in a list of locators (`none` if absent). -/
def specRankPos (u : String) : List String → Option Nat
  | [] => none
  | v :: vs => if v = u then some 1 else (specRankPos u vs).map (· + 1)

/-- Spec-side rank of a locator for one model: its 1-based position after the
stable ascending sort of that model's list by raw score. -/
def specRank (results : RankedList) (u : String) : Option Nat :=
  specRankPos u ((sortAsc results).map Prod.fst)

/-- Spec-side contribution of one model to a locator's
`(totalScore, totalWeight)`: `(weight * 1/rank, weight)` if the model ranked
the locator, `(0, 0)` otherwise. -/
def specContribution (weights : List (String × ℚ)) (m : String × RankedList)
    (u : String) : ℚ × ℚ :=
  match specRank m.2 u with
  | some r => (lookupWeight weights m.1 * (1 / (r : ℚ)), lookupWeight weights m.1)
  | none => (0, 0)

/-- Spec-side `totalScore`: sum over the models that ranked the locator of
`weight * 1/rank`. -/
def specTotalScore (weights : List (String × ℚ)) (mr : ModelResults) (u : String) : ℚ :=
  (mr.map (fun m => (specContribution weights m u).1)).sum

/-- Spec-side `totalWeight`: sum of those models' weights. -/
def specTotalWeight (weights : List (String × ℚ)) (mr : ModelResults) (u : String) : ℚ :=
  (mr.map (fun m => (specContribution weights m u).2)).sum

/-! ### Sorting lemmas -/

theorem insertAsc_perm (x : String × ℚ) (l : RankedList) :
    (insertAsc x l).Perm (x :: l) := by
  induction l with
  | nil => exact List.Perm.refl _
  | cons y ys ih =>
    rw [insertAsc]
    by_cases h : y.2 < x.2
    · rw [if_pos h]
      exact ((ih.cons y).trans (List.Perm.swap x y ys)).symm.symm
    · rw [if_neg h]

theorem sortAsc_perm (l : RankedList) : (sortAsc l).Perm l := by
  induction l with
  | nil => exact List.Perm.refl _
  | cons x xs ih => exact (insertAsc_perm x (sortAsc xs)).trans (ih.cons x)

theorem insertDesc_perm (x : ℚ × Gif) (l : List (ℚ × Gif)) :
    (insertDesc x l).Perm (x :: l) := by
  induction l with
  | nil => exact List.Perm.refl _
  | cons y ys ih =>
    rw [insertDesc]
    by_cases h : x.1 < y.1
    · rw [if_pos h]
      exact ((ih.cons y).trans (List.Perm.swap x y ys)).symm.symm
    · rw [if_neg h]

theorem sortDesc_perm (l : List (ℚ × Gif)) : (sortDesc l).Perm l := by
  induction l with
  | nil => exact List.Perm.refl _
  | cons x xs ih => exact (insertDesc_perm x (sortDesc xs)).trans (ih.cons x)

theorem insertDesc_sorted (x : ℚ × Gif) (l : List (ℚ × Gif))
    (h : l.Pairwise (fun a b => b.1 ≤ a.1)) :
    (insertDesc x l).Pairwise (fun a b => b.1 ≤ a.1) := by
  induction l with
  | nil => simp [insertDesc]
  | cons y ys ih =>
    rw [insertDesc]
    rcases h with - | ⟨hy, hys⟩
    by_cases hxy : x.1 < y.1
    · rw [if_pos hxy]
      refine List.Pairwise.cons (fun b hb => ?_) (ih hys)
      rcases List.mem_cons.mp (((insertDesc_perm x ys).mem_iff).mp hb) with rfl | hb
      · exact le_of_lt hxy
      · exact hy b hb
    · rw [if_neg hxy]
      refine List.Pairwise.cons (fun b hb => ?_) (List.Pairwise.cons hy hys)
      rcases List.mem_cons.mp hb with rfl | hb
      · exact le_of_not_lt hxy
      · exact le_trans (hy b hb) (le_of_not_lt hxy)

theorem sortDesc_sorted (l : List (ℚ × Gif)) :
    (sortDesc l).Pairwise (fun a b => b.1 ≤ a.1) := by
  induction l with
  | nil => exact List.Pairwise.nil
  | cons x xs ih => exact insertDesc_sorted x (sortDesc xs) ih

theorem insertAsc_sorted (x : String × ℚ) (l : RankedList)
    (h : l.Pairwise (fun a b => a.2 ≤ b.2)) :
    (insertAsc x l).Pairwise (fun a b => a.2 ≤ b.2) := by
  induction l with
  | nil => simp [insertAsc]
  | cons y ys ih =>
    rw [insertAsc]
    rcases h with - | ⟨hy, hys⟩
    by_cases hxy : y.2 < x.2
    · rw [if_pos hxy]
      refine List.Pairwise.cons (fun b hb => ?_) (ih hys)
      rcases List.mem_cons.mp (((insertAsc_perm x ys).mem_iff).mp hb) with rfl | hb
      · exact le_of_lt hxy
      · exact hy b hb
    · rw [if_neg hxy]
      refine List.Pairwise.cons (fun b hb => ?_) (List.Pairwise.cons hy hys)
      rcases List.mem_cons.mp hb with rfl | hb
      · exact le_of_not_lt hxy
      · exact le_trans (le_of_not_lt hxy) (hy b hb)

theorem sortAsc_sorted (l : RankedList) :
    (sortAsc l).Pairwise (fun a b => a.2 ≤ b.2) := by
  induction l with
  | nil => exact List.Pairwise.nil
  | cons x xs ih => exact insertAsc_sorted x (sortAsc xs) ih

/-! ### Bridging the rank `Map` to the spec's 1-based positions -/

theorem mapSet_of_not_mem (m : List (String × Nat)) (k : String) (v : Nat)
    (h : ∀ p ∈ m, p.1 ≠ k) : mapSet m k v = m ++ [(k, v)] := by
  rw [mapSet, if_neg]
  simp only [List.any_eq_true, beq_iff_eq, not_exists, not_and]
  exact fun p hp => h p hp

theorem foldl_mapSet_eq (l : List (Nat × (String × ℚ))) (m : List (String × Nat))
    (hdisj : ∀ p ∈ m, ∀ q ∈ l, p.1 ≠ q.2.1)
    (hnd : (l.map (fun q => q.2.1)).Nodup) :
    l.foldl (fun m iu => mapSet m iu.2.1 (iu.1 + 1)) m
      = m ++ l.map (fun iu => (iu.2.1, iu.1 + 1)) := by
  induction l generalizing m with
  | nil => simp
  | cons q rest ih =>
    rw [List.foldl_cons,
      mapSet_of_not_mem m q.2.1 (q.1 + 1) (fun p hp => hdisj p hp q (by simp)),
      List.map_cons]
    rw [List.map_cons, List.nodup_cons] at hnd
    rw [ih (m ++ [(q.2.1, q.1 + 1)])
      (by
        intro p hp q' hq'
        rcases List.mem_append.mp hp with hp | hp
        · exact hdisj p hp q' (List.mem_cons_of_mem q hq')
        · simp only [List.mem_singleton] at hp
          subst hp
          intro hk
          exact hnd.1 (hk ▸ List.mem_map_of_mem (fun q => q.2.1) hq'))
      hnd.2]
    simp

theorem mapGet_enum_map (l : RankedList) (n : Nat) (u : String) :
    mapGet ((l.enumFrom n).map (fun iu => (iu.2.1, iu.1 + 1))) u
      = (specRankPos u (l.map Prod.fst)).map (fun r => r + n) := by
  induction l generalizing n with
  | nil => rfl
  | cons x xs ih =>
    rw [List.enumFrom_cons, List.map_cons, List.map_cons, specRankPos]
    by_cases hx : x.1 = u
    · rw [if_pos hx, mapGet, List.find?_cons_of_pos _ (by simpa using hx)]
      simp [Nat.add_comm]
    · rw [if_neg hx, mapGet, List.find?_cons_of_neg _ (by simpa using hx), ← mapGet, ih]
      cases specRankPos u (xs.map Prod.fst) with
      | none => rfl
      | some r => simp [Nat.add_assoc, Nat.add_comm 1 n]

theorem enumFrom_keys (l : RankedList) (n : Nat) :
    (l.enumFrom n).map (fun q => q.2.1) = l.map Prod.fst := by
  induction l generalizing n with
  | nil => rfl
  | cons x xs ih => rw [List.enumFrom_cons, List.map_cons, List.map_cons, ih]

/-- With duplicate-free locators, the rank `Map` built by the source agrees
with the specification's 1-based position after the stable ascending sort. -/
theorem mapGet_buildRankMap (results : RankedList)
    (hnd : (results.map Prod.fst).Nodup) (u : String) :
    mapGet (buildRankMap results) u = specRank results u := by
  have hperm : ((sortAsc results).map Prod.fst).Perm (results.map Prod.fst) :=
    (sortAsc_perm results).map Prod.fst
  have hnd' : ((sortAsc results).map Prod.fst).Nodup := hperm.nodup_iff.mpr hnd
  rw [buildRankMap, List.enum_eq_enumFrom,
    foldl_mapSet_eq _ [] (by simp) (by rw [enumFrom_keys]; exact hnd'),
    List.nil_append, specRank, mapGet_enum_map]
  cases specRankPos u ((sortAsc results).map Prod.fst) with
  | none => rfl
  | some r => simp

/-! ### Bridging the aggregation loop to the spec's sums -/

theorem specTotalScore_cons (weights : List (String × ℚ)) (m : String × RankedList)
    (rest : ModelResults) (u : String) :
    specTotalScore weights (m :: rest) u
      = (specContribution weights m u).1 + specTotalScore weights rest u := by
  rw [specTotalScore, List.map_cons, List.sum_cons, specTotalScore]

theorem specTotalWeight_cons (weights : List (String × ℚ)) (m : String × RankedList)
    (rest : ModelResults) (u : String) :
    specTotalWeight weights (m :: rest) u
      = (specContribution weights m u).2 + specTotalWeight weights rest u := by
  rw [specTotalWeight, List.map_cons, List.sum_cons, specTotalWeight]

theorem foldl_accumulate_eq (weights : List (String × ℚ)) (u : String)
    (mr : ModelResults) (h : ∀ m ∈ mr, (m.2.map Prod.fst).Nodup) (a : ℚ × ℚ) :
    (rankingMaps mr).foldl (accumulate weights u) a
      = (a.1 + specTotalScore weights mr u, a.2 + specTotalWeight weights mr u) := by
  induction mr generalizing a with
  | nil => simp [rankingMaps, specTotalScore, specTotalWeight]
  | cons m rest ih =>
    have hm := mapGet_buildRankMap m.2 (h m (by simp)) u
    have hrest : ∀ m' ∈ rest, (m'.2.map Prod.fst).Nodup :=
      fun m' hm' => h m' (List.mem_cons_of_mem m hm')
    rw [rankingMaps, List.map_cons, List.foldl_cons, ← rankingMaps, ih hrest,
      specTotalScore_cons, specTotalWeight_cons]
    simp only [accumulate, hm, specContribution]
    cases hr : specRank m.2 u with
    | some r =>
      simp only [Prod.mk.injEq]
      constructor <;> ring
    | none =>
      simp only [Prod.mk.injEq]
      constructor <;> ring

/-- Claim C1: for every search response, every locator in the union of the
returned locators is aggregated with
`combinedScore = (sum over ranking models of weight * 1/rank) / (sum of those
weights)`, where a model's rank is the locator's 1-based position after a
stable ascending sort of that model's list by raw score and the weight
defaults to `1/2` for unconfigured model ids; locators with accumulated total
weight `0` and locators with no matching item in `favCopy` are dropped; and
the output is the surviving items sorted descending by combined score
(stably, so ties keep the union's enumeration order). Duplicate-free locators
per model are assumed, as a rank is otherwise ill-defined. -/
theorem C1_rank_fusion (weights : List (String × ℚ)) (mr : ModelResults)
    (favCopy : List Gif) (h : ∀ m ∈ mr, (m.2.map Prod.fst).Nodup) :
    aggregated weights mr favCopy
        = (allUrls mr).filterMap (fun u =>
            if specTotalWeight weights mr u = 0 then none
            else (findGif favCopy u).map
              (fun g => (specTotalScore weights mr u / specTotalWeight weights mr u, g)))
      ∧ fuseResults weights mr favCopy
          = (sortDesc (aggregated weights mr favCopy)).map Prod.snd
      ∧ (sortDesc (aggregated weights mr favCopy)).Perm (aggregated weights mr favCopy)
      ∧ (sortDesc (aggregated weights mr favCopy)).Pairwise (fun a b => b.1 ≤ a.1) := by
  refine ⟨?_, rfl, sortDesc_perm _, sortDesc_sorted _⟩
  rw [aggregated]
  refine List.filterMap_congr (fun u _ => ?_)
  rw [show aggregateUrl weights (rankingMaps mr) u
      = (specTotalScore weights mr u, specTotalWeight weights mr u) by
    rw [aggregateUrl, foldl_accumulate_eq weights u mr h (0, 0)]
    simp]

/-- Concrete data for the C1 witness. -/
def wifGif : Gif :=
  { format := 1, src := "https://media.tenor.co/u.gif", width := 2, height := 2,
    order := 0, url := "u" }

def wifMR : ModelResults := [("0", [("u", 1)])]

def wifW : List (String × ℚ) := [("0", 1)]

/-- Witness for C1 at a concrete response with one model and one locator. -/
theorem C1_rank_fusion_witness :
    (∀ m ∈ wifMR, (m.2.map Prod.fst).Nodup)
      ∧ (aggregated wifW wifMR [wifGif]
            = (allUrls wifMR).filterMap (fun u =>
                if specTotalWeight wifW wifMR u = 0 then none
                else (findGif [wifGif] u).map
                  (fun g => (specTotalScore wifW wifMR u / specTotalWeight wifW wifMR u, g)))
          ∧ fuseResults wifW wifMR [wifGif]
              = (sortDesc (aggregated wifW wifMR [wifGif])).map Prod.snd
          ∧ (sortDesc (aggregated wifW wifMR [wifGif])).Perm (aggregated wifW wifMR [wifGif])
          ∧ (sortDesc (aggregated wifW wifMR [wifGif])).Pairwise (fun a b => b.1 ≤ a.1)) :=
  ⟨by decide, C1_rank_fusion wifW wifMR [wifGif] (by decide)⟩

/-! ### The concrete two-model scenario of claim C4 -/

def gifX : Gif :=
  { format := 1, src := "https://x.discordapp.net/x.gif", width := 1, height := 1,
    order := 0, url := "x" }

def gifY : Gif :=
  { format := 1, src := "https://y.discordapp.net/y.gif", width := 1, height := 1,
    order := 1, url := "y" }

def gifZ : Gif :=
  { format := 1, src := "https://z.discordapp.net/z.gif", width := 1, height := 1,
    order := 2, url := "z" }

/-- Model A returns `[x, y, z]` with ascending raw scores `[1, 2, 3]`;
model B returns `[y, x]` with ascending raw scores `[1, 2]`. -/
def mrC4 : ModelResults :=
  [("A", [("x", 1), ("y", 2), ("z", 3)]), ("B", [("y", 1), ("x", 2)])]

/-- Configured weights `A = 1`, `B = 1`. -/
def wC4 : List (String × ℚ) := [("A", 1), ("B", 1)]

def favC4 : List Gif := [gifX, gifY, gifZ]

theorem allUrls_C4 : allUrls mrC4 = ["x", "y", "z"] := by decide

theorem rankingMaps_C4 :
    rankingMaps mrC4
      = [("A", [("x", 1), ("y", 2), ("z", 3)]), ("B", [("y", 1), ("x", 2)])] := by
  decide

theorem accumulate_some (weights : List (String × ℚ)) (url : String) (acc : ℚ × ℚ)
    (m : String × List (String × Nat)) (r : Nat) (h : mapGet m.2 url = some r) :
    accumulate weights url acc m
      = (acc.1 + 1 / (r : ℚ) * lookupWeight weights m.1, acc.2 + lookupWeight weights m.1) := by
  rw [accumulate, h]

theorem accumulate_none (weights : List (String × ℚ)) (url : String) (acc : ℚ × ℚ)
    (m : String × List (String × Nat)) (h : mapGet m.2 url = none) :
    accumulate weights url acc m = acc := by
  rw [accumulate, h]

theorem aggX_C4 : aggregateUrl wC4 (rankingMaps mrC4) "x" = (3 / 2, 2) := by
  rw [rankingMaps_C4, aggregateUrl, List.foldl_cons, List.foldl_cons, List.foldl_nil,
    accumulate_some wC4 "x" _ _ 2 (by decide), accumulate_some wC4 "x" _ _ 1 (by decide)]
  simp [lookupWeight, wC4]
  norm_num

theorem aggY_C4 : aggregateUrl wC4 (rankingMaps mrC4) "y" = (3 / 2, 2) := by
  rw [rankingMaps_C4, aggregateUrl, List.foldl_cons, List.foldl_cons, List.foldl_nil,
    accumulate_some wC4 "y" _ _ 1 (by decide), accumulate_some wC4 "y" _ _ 2 (by decide)]
  simp [lookupWeight, wC4]
  norm_num

theorem aggZ_C4 : aggregateUrl wC4 (rankingMaps mrC4) "z" = (1 / 3, 1) := by
  rw [rankingMaps_C4, aggregateUrl, List.foldl_cons, List.foldl_cons, List.foldl_nil,
    accumulate_none wC4 "z" _ _ (by decide), accumulate_some wC4 "z" _ _ 3 (by decide)]
  simp [lookupWeight, wC4]

theorem aggregated_C4 :
    aggregated wC4 mrC4 favC4 = [(3 / 4, gifX), (3 / 4, gifY), (1 / 3, gifZ)] := by
  rw [aggregated, allUrls_C4]
  simp only [List.filterMap_cons, List.filterMap_nil, aggX_C4, aggY_C4, aggZ_C4]
  simp [findGif, favC4, gifX, gifY, gifZ]
  norm_num

theorem fuse_C4_eval : fuseResults wC4 mrC4 favC4 = [gifX, gifY, gifZ] := by
  show (sortDesc (aggregated wC4 mrC4 favC4)).map Prod.snd = _
  rw [aggregated_C4]
  norm_num [sortDesc, insertDesc]

/-- Counterexample to claim C4: at the claim's own input (model A ranks
`[x, y, z]` with ascending scores `[1, 2, 3]`, model B ranks `[y, x]` with
ascending scores `[1, 2]`, weights `A = 1`, `B = 1`) the fused output is
`[x, y, z]`: `x` is ranked above `y`, not `y` above `x` as claimed, because
the `x`/`y` tie at combined score `3/4` is broken by the union's enumeration
order, which enumerates `x` first. -/
theorem C4_counterexample :
    fuseResults wC4 mrC4 favC4 = [gifX, gifY, gifZ] ∧ gifX ≠ gifY :=
  ⟨fuse_C4_eval, by decide⟩

/-- Claim C4 as amended: on the same input the fused output ranks `x` above
`y` above `z`; `x` and `y` tie with combined score `3/4` (`z` scores `1/3`)
and the tie is broken by the union's enumeration order (stable descending
sort), which enumerates `x` before `y`. -/
theorem C4_amended :
    aggregated wC4 mrC4 favC4 = [(3 / 4, gifX), (3 / 4, gifY), (1 / 3, gifZ)]
      ∧ fuseResults wC4 mrC4 favC4 = [gifX, gifY, gifZ] := by
  exact ⟨aggregated_C4, fuse_C4_eval⟩

/-! ## Sync state, change detector and indexer (part_000 lines 62-237) -/

/-- The module-level tracking state of part_000 (lines 62-66): `lastUserId`,
`lastIndexedFavorites`, `indexedModels` (a `Set`, kept in insertion order),
`pendingIndexRequest` and `lastRankingWeights`. -/
structure SyncState where
  lastUserId : Option String
  lastIndexedFavorites : List String
  indexedModels : List String
  pendingIndexRequest : Bool
  lastRankingWeights : List (String × ℚ)
deriving DecidableEq, Repr

/-- The configuration the indexer and change detector read: the current user
id (`UserStore.getCurrentUser().id`) and the `accountKeys` and `modelWeights`
private settings. -/
structure IndexCfg where
  userId : String
  accountKeys : List (String × String)
  modelWeights : List (String × ℚ)
deriving DecidableEq, Repr

/-- JavaScript `record[k]` on an association list (`undefined` = `none`). -/
def jsGet {α : Type} (m : List (String × α)) (k : String) : Option α :=
  (m.find? (fun p => p.1 == k)).map Prod.snd

/-- The lookup `lastRankingWeights[model] ?? 0` (part_000 line 231). -/
def lastWeightOf (st : SyncState) (model : String) : ℚ :=
  (jsGet st.lastRankingWeights model).getD 0

/-- The change detector `shouldIndex` (part_000 lines 216-237). -/
def shouldIndex (cfg : IndexCfg) (st : SyncState) (favorites : List Gif) : Bool :=
  if st.lastUserId ≠ some cfg.userId then true
  else
    let currentValidUrls := getValidGifUrls favorites
    if currentValidUrls.length ≠ st.lastIndexedFavorites.length ∨
        ¬ ((currentValidUrls.zip st.lastIndexedFavorites).all fun p => p.1 == p.2) = true then
      true
    else if cfg.modelWeights.any (fun p =>
        (decide (lastWeightOf st p.1 = 0) && decide (0 < p.2)
            && !(st.indexedModels.contains p.1))
        || (decide (0 < p.2) && !(st.indexedModels.contains p.1))) then
      true
    else false

theorem contains_eq_false_iff (as : List String) (a : String) :
    (as.contains a = false) ↔ a ∉ as := by
  rw [← Bool.not_eq_true]
  exact not_congr List.elem_iff

theorem length_eq_and_zip_all_iff (l1 l2 : List String) :
    (l1.length = l2.length ∧ ((l1.zip l2).all fun p => p.1 == p.2) = true) ↔ l1 = l2 := by
  induction l1 generalizing l2 with
  | nil => cases l2 <;> simp
  | cons a as ih =>
    cases l2 with
    | nil => simp
    | cons b bs =>
      simp only [List.length_cons, Nat.succ.injEq, List.zip_cons_cons, List.all_cons,
        Bool.and_eq_true, beq_iff_eq, List.cons.injEq]
      rw [← ih bs]
      tauto

/-- Normal form of the change detector: the redundant
`lastRankingWeights`-sensitive clause of the source's loop is subsumed by the
general `weight > 0 and not yet indexed` clause. -/
theorem shouldIndex_spec (cfg : IndexCfg) (st : SyncState) (favorites : List Gif) :
    shouldIndex cfg st favorites = true ↔
      st.lastUserId ≠ some cfg.userId
      ∨ getValidGifUrls favorites ≠ st.lastIndexedFavorites
      ∨ ∃ p ∈ cfg.modelWeights, 0 < p.2 ∧ p.1 ∉ st.indexedModels := by
  rw [shouldIndex]
  by_cases h1 : st.lastUserId ≠ some cfg.userId
  · rw [if_pos h1]
    simp [h1]
  · rw [if_neg h1]
    by_cases h2 : getValidGifUrls favorites = st.lastIndexedFavorites
    · rw [if_neg (by
        rw [← length_eq_and_zip_all_iff] at h2
        push_neg
        exact ⟨h2.1, h2.2⟩)]
      have hpt : ∀ p : String × ℚ,
          ((decide (lastWeightOf st p.1 = 0) && decide (0 < p.2)
              && !(st.indexedModels.contains p.1))
            || (decide (0 < p.2) && !(st.indexedModels.contains p.1))) = true
            ↔ (0 < p.2 ∧ p.1 ∉ st.indexedModels) := by
        intro p
        simp only [Bool.or_eq_true, Bool.and_eq_true, decide_eq_true_eq,
          Bool.not_eq_true', contains_eq_false_iff]
        tauto
      by_cases h3 : cfg.modelWeights.any (fun p =>
          (decide (lastWeightOf st p.1 = 0) && decide (0 < p.2)
              && !(st.indexedModels.contains p.1))
          || (decide (0 < p.2) && !(st.indexedModels.contains p.1))) = true
      · rw [if_pos h3]
        rw [List.any_eq_true] at h3
        obtain ⟨p, hp, hpp⟩ := h3
        simp only [true_iff]
        exact Or.inr (Or.inr ⟨p, hp, (hpt p).mp hpp⟩)
      · rw [if_neg h3]
        rw [List.any_eq_true] at h3
        push_neg at h1
        constructor
        · intro hf
          exact absurd hf (by simp)
        · rintro (hc | hc | ⟨p, hp, hc⟩)
          · exact absurd h1 hc
          · exact absurd h2 hc
          · exact absurd ⟨p, hp, (hpt p).mpr hc⟩ h3
    · rw [if_pos (by
        by_contra hcon
        push_neg at hcon
        exact h2 ((length_eq_and_zip_all_iff _ _).mp ⟨hcon.1, by simpa using hcon.2⟩))]
      simp [h2]

/-- Claim C2: the change detector returns `true` exactly when (a) the
caller's account epoch differs from the recorded one, or (b) the ordered
sequence of validated ids differs from `lastIndexedFavorites` (in length or
in any position, i.e. as lists), or (c) some model with configured weight
`> 0` is absent from `indexedModels`; in all other cases it returns `false`.
It is a pure function of its arguments: no state is produced or mutated. -/
theorem C2_change_detector (cfg : IndexCfg) (st : SyncState) (items : List Gif) :
    shouldIndex cfg st items = true ↔
      st.lastUserId ≠ some cfg.userId
      ∨ getValidGifUrls items ≠ st.lastIndexedFavorites
      ∨ ∃ p ∈ cfg.modelWeights, 0 < p.2 ∧ p.1 ∉ st.indexedModels :=
  shouldIndex_spec cfg st items

/-- Claim C10: the change-detector decision is independent of the recorded
`lastRankingWeights`: two states that differ only there yield the same
decision, because the `weight rose from 0 and not yet indexed` clause is
subsumed by the `weight > 0 and not yet indexed` clause. -/
theorem C10_weights_independent (cfg : IndexCfg) (st : SyncState) (items : List Gif)
    (w1 w2 : List (String × ℚ)) :
    shouldIndex cfg { st with lastRankingWeights := w1 } items
      = shouldIndex cfg { st with lastRankingWeights := w2 } items := by
  rw [Bool.eq_iff_iff, shouldIndex_spec, shouldIndex_spec]

/-! ## Indexer (`sendIndexRequest`, part_000 lines 73-175) -/

/-- The account-key guard `s[id]?.length !== 32` (part_000 line 76): the
request may proceed only when the current account has a 32-character key. -/
def accountKeyOk (cfg : IndexCfg) : Bool :=
  match jsGet cfg.accountKeys cfg.userId with
  | some k => jsLength k == 32
  | none => false

/-- The validated `(name, src)` pairs collected by `sendIndexRequest`'s
filter loop (part_000 lines 81-120; the checks are those of
`getValidGifUrls`). -/
def validGifPairs (favorites : List Gif) : List (String × String) :=
  favorites.filterMap (fun g => (validGifName g).map (fun n => (n, g.src)))

/-- The model ids with configured ranking weight `> 0`
(part_000 lines 132-136). -/
def modelsWithWeight (cfg : IndexCfg) : List String :=
  (cfg.modelWeights.filter (fun p => decide (0 < p.2))).map Prod.fst

/-- JavaScript `Set.prototype.add` for model ids. -/
def addModel (s : List String) (m : String) : List String :=
  if m ∈ s then s else s ++ [m]

/-- The phase of `sendIndexRequest` before the `await` (part_000 lines
73-157): guard on the single-flight flag and the account key, validate the
favorites, compute the models to submit, and — when nothing rules the request
out — set the in-flight flag and issue the request, returning
`some (names, models)`. -/
def sendIndexStart (cfg : IndexCfg) (st : SyncState) (favorites : List Gif) :
    SyncState × Option (List String × List String) :=
  if st.pendingIndexRequest || !(accountKeyOk cfg) then (st, none)
  else if (validGifPairs favorites).isEmpty then (st, none)
  else if (modelsWithWeight cfg).isEmpty then (st, none)
  else ({ st with pendingIndexRequest := true },
    some ((validGifPairs favorites).map Prod.fst, modelsWithWeight cfg))

/-- The phase of `sendIndexRequest` after the `await` (part_000 lines
158-174): on a 2xx response (`outcome = some true`) update the tracking
state; on a non-2xx response (`some false`) or a thrown transport error
(`none`) the `catch` only logs and the tracking state is left untouched; the
`finally` clears the single-flight flag in every case. -/
def sendIndexFinish (cfg : IndexCfg) (st : SyncState)
    (names models : List String) (outcome : Option Bool) : SyncState :=
  if outcome = some true then
    { st with
      lastIndexedFavorites := names
      lastUserId := some cfg.userId
      indexedModels := models.foldl addModel st.indexedModels
      lastRankingWeights := cfg.modelWeights
      pendingIndexRequest := false }
  else { st with pendingIndexRequest := false }

/-- The whole `sendIndexRequest` as one transition; the returned flag records
whether a network request was issued. -/
def sendIndexRequest (cfg : IndexCfg) (st : SyncState) (favorites : List Gif)
    (outcome : Option Bool) : SyncState × Bool :=
  match sendIndexStart cfg st favorites with
  | (st1, none) => (st1, false)
  | (st1, some (names, models)) => (sendIndexFinish cfg st1 names models outcome, true)

/-- Runs `n` invocations of `sendIndexRequest` arriving while an earlier
submission is outstanding (each call only runs its pre-`await` phase),
counting how many of them issue a network request. -/
def repeatAttempts (cfg : IndexCfg) (favorites : List Gif) :
    Nat → SyncState → SyncState × Nat
  | 0, st => (st, 0)
  | n + 1, st =>
    match sendIndexStart cfg st favorites with
    | (st1, none) => repeatAttempts cfg favorites n st1
    | (st1, some _) =>
      let r := repeatAttempts cfg favorites n st1
      (r.1, r.2 + 1)

theorem sendIndexStart_pending (cfg : IndexCfg) (st : SyncState)
    (favorites : List Gif) (h : st.pendingIndexRequest = true) :
    sendIndexStart cfg st favorites = (st, none) := by
  rw [sendIndexStart, if_pos (by rw [h, Bool.true_or])]

theorem repeatAttempts_pending (cfg : IndexCfg) (favorites : List Gif) (n : Nat)
    (st : SyncState) (h : st.pendingIndexRequest = true) :
    repeatAttempts cfg favorites n st = (st, 0) := by
  induction n with
  | zero => rfl
  | succ n ih =>
    rw [repeatAttempts, sendIndexStart_pending cfg st favorites h]
    exact ih

theorem sendIndexStart_pending_of_issued (cfg : IndexCfg) (st : SyncState)
    (favorites : List Gif) (h : (sendIndexStart cfg st favorites).2.isSome = true) :
    (sendIndexStart cfg st favorites).1.pendingIndexRequest = true := by
  unfold sendIndexStart at h ⊢
  split_ifs at h ⊢ <;> simp_all

theorem sendIndexStart_indexedModels (cfg : IndexCfg) (st : SyncState)
    (favorites : List Gif) :
    (sendIndexStart cfg st favorites).1.indexedModels = st.indexedModels := by
  unfold sendIndexStart
  split_ifs <;> rfl

theorem mem_foldl_addModel (ms : List String) (s : List String) (m : String) :
    m ∈ ms.foldl addModel s ↔ m ∈ s ∨ m ∈ ms := by
  induction ms generalizing s with
  | nil => simp
  | cons a rest ih =>
    rw [List.foldl_cons, ih, addModel]
    by_cases ha : a ∈ s
    · rw [if_pos ha]
      simp only [List.mem_cons]
      constructor
      · rintro (h | h)
        · exact Or.inl h
        · exact Or.inr (Or.inr h)
      · rintro (h | rfl | h)
        · exact Or.inl h
        · exact Or.inl ha
        · exact Or.inr h
    · rw [if_neg ha]
      simp only [List.mem_append, List.mem_singleton, List.mem_cons]
      tauto

/-- Claim C6: the single-flight discipline of the indexer. A call arriving
while the in-flight flag is set returns immediately: no network request, no
state mutation. Whenever a call did issue a request, the flag is cleared
before it returns, whatever the outcome (2xx, non-2xx or a thrown error).
And any number of further invocations arriving while the first request is
outstanding issue no request at all: the trace of `n + 1` attempts from an
idle state whose first attempt issues performs exactly one network call. -/
theorem C6_single_flight :
    (∀ (cfg : IndexCfg) (st : SyncState) (favorites : List Gif) (outcome : Option Bool),
        st.pendingIndexRequest = true →
          sendIndexRequest cfg st favorites outcome = (st, false))
      ∧ (∀ (cfg : IndexCfg) (st : SyncState) (favorites : List Gif) (outcome : Option Bool),
          (sendIndexRequest cfg st favorites outcome).2 = true →
            (sendIndexRequest cfg st favorites outcome).1.pendingIndexRequest = false)
      ∧ (∀ (cfg : IndexCfg) (st : SyncState) (favorites : List Gif) (n : Nat),
          (sendIndexStart cfg st favorites).2.isSome = true →
            repeatAttempts cfg favorites (n + 1) st
              = ((sendIndexStart cfg st favorites).1, 1)) := by
  refine ⟨?_, ?_, ?_⟩
  · intro cfg st favorites outcome h
    rw [sendIndexRequest, sendIndexStart_pending cfg st favorites h]
  · intro cfg st favorites outcome h
    rw [sendIndexRequest] at h ⊢
    rcases hs : sendIndexStart cfg st favorites with ⟨st1, p⟩
    cases p with
    | none => rw [hs] at h; simp at h
    | some pl =>
      rcases pl with ⟨names, models⟩
      show (sendIndexFinish cfg st1 names models outcome).pendingIndexRequest = false
      rw [sendIndexFinish]
      split_ifs <;> rfl
  · intro cfg st favorites n h
    have hp := sendIndexStart_pending_of_issued cfg st favorites h
    rw [repeatAttempts]
    rcases hs : sendIndexStart cfg st favorites with ⟨st1, p⟩
    rw [hs] at hp
    cases p with
    | none => rw [hs] at h; simp at h
    | some pl =>
      show (let r := repeatAttempts cfg favorites n st1; (r.1, r.2 + 1))
          = ((st1, some pl).1, 1)
      simp only [repeatAttempts_pending cfg favorites n st1 (by simpa using hp)]

/-- Concrete inputs for the indexer witnesses: a valid gif, a configuration
with a 32-character key and one positively weighted model, and idle/busy
states. -/
def cfgW : IndexCfg :=
  { userId := "user"
    accountKeys := [("user", "abcdefghijklmnopqrstuvwxyzABCDEF")]
    modelWeights := [("m", 1)] }

def stIdle : SyncState :=
  { lastUserId := some "user", lastIndexedFavorites := [], indexedModels := [],
    pendingIndexRequest := false, lastRankingWeights := [] }

def stBusy : SyncState := { stIdle with pendingIndexRequest := true }

def favsW : List Gif := [wifGif]

/-- Witness for C6 at the concrete inputs. -/
theorem C6_single_flight_witness :
    sendIndexRequest cfgW stBusy favsW (some true) = (stBusy, false)
      ∧ (sendIndexRequest cfgW stIdle favsW (some false)).1.pendingIndexRequest = false
      ∧ repeatAttempts cfgW favsW 3 stIdle = ((sendIndexStart cfgW stIdle favsW).1, 1) :=
  ⟨C6_single_flight.1 cfgW stBusy favsW (some true) rfl,
   C6_single_flight.2.1 cfgW stIdle favsW (some false) (by decide),
   C6_single_flight.2.2 cfgW stIdle favsW 2 (by decide)⟩

theorem sendIndexStart_issues (cfg : IndexCfg) (st : SyncState) (favorites : List Gif)
    (hpend : st.pendingIndexRequest = false) (hkey : accountKeyOk cfg = true)
    (hvalid : validGifPairs favorites ≠ []) (hmodels : modelsWithWeight cfg ≠ []) :
    sendIndexStart cfg st favorites
      = ({ st with pendingIndexRequest := true },
          some ((validGifPairs favorites).map Prod.fst, modelsWithWeight cfg)) := by
  rw [sendIndexStart, if_neg (by rw [hpend, hkey]; simp),
    if_neg (by simpa [List.isEmpty_iff] using hvalid),
    if_neg (by simpa [List.isEmpty_iff] using hmodels)]

/-- Claim C5: for a submission attempt that actually issues a request (flag
clear, 32-character key, at least one valid gif and one positively weighted
model), a non-2xx response or a thrown error leaves the tracking state
(`lastIndexedFavorites`, `indexedModels`, `lastRankingWeights`) unchanged;
a 2xx response sets `lastIndexedFavorites` to the submitted names in
submission order, extends `indexedModels` with exactly the submitted model
ids, and copies the current weights into `lastRankingWeights`. -/
theorem C5_indexer_state (cfg : IndexCfg) (st : SyncState) (favorites : List Gif)
    (hpend : st.pendingIndexRequest = false) (hkey : accountKeyOk cfg = true)
    (hvalid : validGifPairs favorites ≠ []) (hmodels : modelsWithWeight cfg ≠ []) :
    (∀ outcome, outcome ≠ some true →
        (sendIndexRequest cfg st favorites outcome).1.lastIndexedFavorites
            = st.lastIndexedFavorites
          ∧ (sendIndexRequest cfg st favorites outcome).1.indexedModels
              = st.indexedModels
          ∧ (sendIndexRequest cfg st favorites outcome).1.lastRankingWeights
              = st.lastRankingWeights)
      ∧ ((sendIndexRequest cfg st favorites (some true)).1.lastIndexedFavorites
            = (validGifPairs favorites).map Prod.fst
        ∧ (∀ m, m ∈ (sendIndexRequest cfg st favorites (some true)).1.indexedModels
              ↔ m ∈ st.indexedModels ∨ m ∈ modelsWithWeight cfg)
        ∧ (sendIndexRequest cfg st favorites (some true)).1.lastRankingWeights
            = cfg.modelWeights) := by
  have hreq : ∀ outcome, sendIndexRequest cfg st favorites outcome
      = (sendIndexFinish cfg { st with pendingIndexRequest := true }
          ((validGifPairs favorites).map Prod.fst) (modelsWithWeight cfg) outcome, true) := by
    intro outcome
    rw [sendIndexRequest, sendIndexStart_issues cfg st favorites hpend hkey hvalid hmodels]
  constructor
  · intro outcome ho
    rw [hreq outcome]
    show (sendIndexFinish cfg { st with pendingIndexRequest := true }
        ((validGifPairs favorites).map Prod.fst) (modelsWithWeight cfg) outcome).lastIndexedFavorites
          = _ ∧ _
    rw [sendIndexFinish, if_neg ho]
    exact ⟨rfl, rfl, rfl⟩
  · rw [hreq (some true)]
    show (sendIndexFinish cfg { st with pendingIndexRequest := true }
        ((validGifPairs favorites).map Prod.fst) (modelsWithWeight cfg) (some true)).lastIndexedFavorites
          = _ ∧ _
    rw [sendIndexFinish, if_pos rfl]
    exact ⟨rfl, fun m => mem_foldl_addModel (modelsWithWeight cfg) st.indexedModels m, rfl⟩

/-- Witness for C5 at the concrete inputs of the C6 witness. -/
theorem C5_indexer_state_witness :
    (stIdle.pendingIndexRequest = false ∧ accountKeyOk cfgW = true
        ∧ validGifPairs favsW ≠ [] ∧ modelsWithWeight cfgW ≠ [])
      ∧ ((∀ outcome, outcome ≠ some true →
            (sendIndexRequest cfgW stIdle favsW outcome).1.lastIndexedFavorites
                = stIdle.lastIndexedFavorites
              ∧ (sendIndexRequest cfgW stIdle favsW outcome).1.indexedModels
                  = stIdle.indexedModels
              ∧ (sendIndexRequest cfgW stIdle favsW outcome).1.lastRankingWeights
                  = stIdle.lastRankingWeights)
          ∧ ((sendIndexRequest cfgW stIdle favsW (some true)).1.lastIndexedFavorites
                = (validGifPairs favsW).map Prod.fst
            ∧ (∀ m, m ∈ (sendIndexRequest cfgW stIdle favsW (some true)).1.indexedModels
                  ↔ m ∈ stIdle.indexedModels ∨ m ∈ modelsWithWeight cfgW)
            ∧ (sendIndexRequest cfgW stIdle favsW (some true)).1.lastRankingWeights
                = cfgW.modelWeights)) :=
  ⟨⟨rfl, by decide, by decide, by decide⟩,
   C5_indexer_state cfgW stIdle favsW rfl (by decide) (by decide) (by decide)⟩

/-! ### Claim C7: account-epoch changes and the indexed-model set -/

/-- A sync state recorded under account epoch `"A"`, with model `"m1"`
indexed. -/
def stEpochA : SyncState :=
  { lastUserId := some "A", lastIndexedFavorites := ["u"], indexedModels := ["m1"],
    pendingIndexRequest := false, lastRankingWeights := [("m1", 1)] }

/-- The configuration after switching to account `"B"`, where only `"m2"`
has positive weight. -/
def cfgEpochB : IndexCfg :=
  { userId := "B", accountKeys := [("B", "abcdefghijklmnopqrstuvwxyzABCDEF")],
    modelWeights := [("m2", 1), ("m1", 0)] }

/-- Counterexample to claim C7: the code never resets the sync state on an
account-epoch change. Starting from a state recorded under epoch `"A"` with
`"m1"` indexed, switching to account `"B"` makes the change detector demand a
resync, and the next successful submission under `"B"` (submitting only
`"m2"`) updates the state to epoch `"B"` — yet `"m1"`, recorded under the
previous epoch, is still present in `indexedModels`. -/
theorem C7_counterexample :
    stEpochA.lastUserId = some "A" ∧ "m1" ∈ stEpochA.indexedModels
      ∧ shouldIndex cfgEpochB stEpochA favsW = true
      ∧ (sendIndexRequest cfgEpochB stEpochA favsW (some true)).1.lastUserId = some "B"
      ∧ "m1" ∈ (sendIndexRequest cfgEpochB stEpochA favsW (some true)).1.indexedModels := by
  decide

/-- Claim C7 as amended: `indexedModels` grows monotonically across every
operation unconditionally — not only while the account epoch is unchanged —
because the code has no reset path: an account-epoch change merely makes
`shouldIndex` report that resynchronisation is needed, and elements recorded
under a previous epoch survive all later updates. -/
theorem C7_amended :
    (∀ (cfg : IndexCfg) (st : SyncState) (favorites : List Gif)
        (outcome : Option Bool) (m : String),
        m ∈ st.indexedModels →
          m ∈ (sendIndexRequest cfg st favorites outcome).1.indexedModels)
      ∧ (∀ (cfg : IndexCfg) (st : SyncState) (favorites : List Gif),
          st.lastUserId ≠ some cfg.userId → shouldIndex cfg st favorites = true) := by
  constructor
  · intro cfg st favorites outcome m hm
    rw [sendIndexRequest]
    have him := sendIndexStart_indexedModels cfg st favorites
    rcases hs : sendIndexStart cfg st favorites with ⟨st1, p⟩
    rw [hs] at him
    simp only at him
    cases p with
    | none => exact him ▸ hm
    | some pl =>
      rcases pl with ⟨names, models⟩
      show m ∈ (sendIndexFinish cfg st1 names models outcome).indexedModels
      rw [sendIndexFinish]
      split_ifs
      · show m ∈ models.foldl addModel st1.indexedModels
        exact (mem_foldl_addModel models st1.indexedModels m).mpr (Or.inl (him ▸ hm))
      · exact him ▸ hm
  · intro cfg st favorites h
    exact (shouldIndex_spec cfg st favorites).mpr (Or.inl h)

/-- Witness for the amended C7 at the epoch-switch scenario. -/
theorem C7_amended_witness :
    "m1" ∈ (sendIndexRequest cfgEpochB stEpochA favsW (some true)).1.indexedModels
      ∧ shouldIndex cfgEpochB stEpochA favsW = true :=
  ⟨C7_amended.1 cfgEpochB stEpochA favsW (some true) "m1" (by decide),
   C7_amended.2 cfgEpochB stEpochA favsW (by decide)⟩

/-! ## Query orchestration (the `SearchBar` component, src/index.tsx lines
343-515; identical structure in part_000 lines 647-836) -/

/-- The per-session orchestration state visible to the search bar: the two
query states, the pending debounce timer (carrying the query it will apply),
the in-flight request's controller (`some aborted?`, `none` when no request
was ever issued), the instance's liveness flag, and the collection view
`favorites` next to the unfiltered snapshot `favCopy`. -/
structure OrchState where
  query : String
  debouncedQuery : String
  debounceTimer : Option String
  inflight : Option Bool
  dead : Bool
  favorites : List Gif
  favCopy : List Gif
deriving DecidableEq, Repr

/-- The handler `onChange` (src/index.tsx lines 357-383): store the query, clear any
pending debounce timer, abort any in-flight request; the empty query
synchronously restores `favorites := favCopy` (and `forceUpdate`s) and
clears the debounced query without scheduling anything; a non-empty query
schedules the 300 ms debounce timer. The returned flag records whether a
network request was issued (never: `onChange` itself performs no fetch). -/
def onChange (s : OrchState) (searchQuery : String) : OrchState × Bool :=
  let s1 := { s with
    query := searchQuery
    debounceTimer := none
    inflight := s.inflight.map (fun _ => true) }
  if searchQuery = "" then
    ({ s1 with debouncedQuery := "", favorites := s.favCopy }, false)
  else
    ({ s1 with debounceTimer := some searchQuery }, false)

/-- The handler `onClear` (src/index.tsx lines 495-510): clear the debounce timer, abort
any in-flight request, reset both query states and restore
`favorites := favCopy` (the `favCopy != null` guard always holds: the patched
props declare `favCopy: Gif[]`). -/
def onClear (s : OrchState) : OrchState × Bool :=
  ({ s with
      query := ""
      debouncedQuery := ""
      debounceTimer := none
      inflight := s.inflight.map (fun _ => true)
      favorites := s.favCopy }, false)

/-- The unmount cleanup (src/index.tsx lines 474-486): clear the debounce
timer, abort any in-flight request, mark the instance dead. -/
def unmount (s : OrchState) : OrchState :=
  { s with
    debounceTimer := none
    inflight := s.inflight.map (fun _ => true)
    dead := true }

/-- The debounce timer firing (`setDebouncedQuery(searchQuery)` after 300 ms)
followed by the search effect's guards (src/index.tsx lines 386-395): an
empty debounced query returns before searching; without a 32-character
account key no request is made; otherwise a fresh `AbortController` is
installed and the request issued (flag `true`). -/
def fireDebounce (s : OrchState) (keyOk : Bool) : OrchState × Bool :=
  match s.debounceTimer with
  | none => (s, false)
  | some q =>
    if q = "" then ({ s with debounceTimer := none, debouncedQuery := q }, false)
    else if !keyOk then ({ s with debounceTimer := none, debouncedQuery := q }, false)
    else ({ s with debounceTimer := none, debouncedQuery := q, inflight := some false },
      true)

/-- The possible outcomes of the search `fetch` as seen by `performSearch`:
an `AbortError` rejection, a transport error, or a settled response with its
`response.ok` status and parsed per-model results. -/
inductive FetchResult
  | abortError
  | networkError
  | response (ok : Bool) (results : ModelResults)
deriving DecidableEq

/-- The `fetch`/`AbortController` contract the source relies on: a request
whose own controller was aborted rejects with `AbortError`. -/
def resolveFetch (aborted : Bool) (r : FetchResult) : FetchResult :=
  if aborted then FetchResult.abortError else r

/-- The tail of `performSearch` (src/index.tsx lines 403-468): a non-ok
response throws; the `catch` returns silently on `AbortError`
(the source comment: don't update UI or log error for aborted requests) and
logs the error otherwise; a successful response fuses the per-model results
against `favCopy` and replaces the collection view. The returned flag
records whether an error was logged (`console.error`). -/
def handleSearchResult (weights : List (String × ℚ)) (s : OrchState) :
    FetchResult → OrchState × Bool
  | FetchResult.abortError => (s, false)
  | FetchResult.networkError => (s, true)
  | FetchResult.response false _ => (s, true)
  | FetchResult.response true results =>
    ({ s with favorites := fuseResults weights results s.favCopy }, false)

/-- Claim C8: an input change or a clear with the empty query skips
debouncing entirely: it cancels any pending debounce timer, aborts any
in-flight request, synchronously restores the collection view to exactly the
unfiltered snapshot `favCopy`, resets the debounced query, and issues no
network request — nor can a later debounce tick issue one, since no timer
remains. -/
theorem C8_empty_query (s : OrchState) (keyOk : Bool) :
    ((onChange s "").1.favorites = s.favCopy
      ∧ (onChange s "").1.debouncedQuery = ""
      ∧ (onChange s "").1.debounceTimer = none
      ∧ (onChange s "").1.inflight = s.inflight.map (fun _ => true)
      ∧ (onChange s "").2 = false
      ∧ fireDebounce (onChange s "").1 keyOk = ((onChange s "").1, false))
    ∧ ((onClear s).1.favorites = s.favCopy
      ∧ (onClear s).1.debouncedQuery = ""
      ∧ (onClear s).1.debounceTimer = none
      ∧ (onClear s).1.inflight = s.inflight.map (fun _ => true)
      ∧ (onClear s).2 = false
      ∧ fireDebounce (onClear s).1 keyOk = ((onClear s).1, false)) :=
  ⟨⟨rfl, rfl, rfl, rfl, rfl, rfl⟩, ⟨rfl, rfl, rfl, rfl, rfl, rfl⟩⟩

/-- Claim C9: a search response for a superseded session is never applied.
Input changes, clears and teardown abort the outstanding request's
controller; a request whose controller was aborted resolves with
`AbortError`, and on `AbortError` the handler leaves the whole state — the
collection view in particular — unchanged, logs no error and sets no error
state. -/
theorem C9_stale_response (weights : List (String × ℚ)) (s : OrchState)
    (r : FetchResult) (q : String) :
    handleSearchResult weights s (resolveFetch true r) = (s, false)
      ∧ (onChange s q).1.inflight = s.inflight.map (fun _ => true)
      ∧ (onClear s).1.inflight = s.inflight.map (fun _ => true)
      ∧ (unmount s).inflight = s.inflight.map (fun _ => true) := by
  refine ⟨rfl, ?_, rfl, rfl⟩
  rw [onChange]
  by_cases hq : q = ""
  · rw [if_pos hq]
  · rw [if_neg hq]

end Clip
